import Mathlib

/-!
Verification of the subtitle-generation tool (`sub_video.py`, `youtube_downloader.py`).

The Python code is shallowly embedded: Python floats are modelled as exact rationals
(`ℚ`), Python ints as `ℤ`/`ℕ`, Python strings as Lean `String`, and the filesystem
touched by `process_media` as a membership predicate `String → Bool` transformed by
explicit add/remove operations.  Fixed-point behaviour of IEEE doubles is outside the
model; all arithmetic is exact.
-/

-- `Rat.mul`, `Rat.add`, `Rat.sub`, `Rat.inv` and `Rat.ofScientific` are `@[irreducible]`
-- in Batteries, which blocks `decide`-style evaluation of concrete rational arithmetic.
-- Restore the default reducibility for this file (the kernel ignores the attribute anyway).
attribute [local semireducible] Rat.mul Rat.add Rat.sub Rat.inv Rat.ofScientific

set_option maxRecDepth 8000

/-! ### Python primitive operations -/

/-- Python `int(x)` applied to a float: truncation toward zero. -/
def pyInt (q : ℚ) : ℤ := if q < 0 then -⌊-q⌋ else ⌊q⌋

/-- Python float floor division `a // b` (result is a float with integral value). -/
def pyFloorDiv (a b : ℚ) : ℚ := (⌊a / b⌋ : ℚ)

/-- Python float modulo `a % b` (`a - b * (a // b)`, sign follows `b`). -/
def pyMod (a b : ℚ) : ℚ := a - b * (⌊a / b⌋ : ℚ)

/-- Decimal digits of `n`, most significant first, with explicit fuel so that the
recursion is structural (fuel `n + 1` always suffices). -/
def natToDigitsAux : ℕ → ℕ → List Char
  | 0, _ => []
  | fuel + 1, n =>
    if n = 0 then []
    else natToDigitsAux fuel (n / 10) ++ [Char.ofNat (48 + n % 10)]

/-- Decimal rendering of a natural number (Python `str` on a non-negative int). -/
def natStr (n : ℕ) : String := if n = 0 then "0" else ⟨natToDigitsAux (n + 1) n⟩

/-- Python `str` on an int (prepends `-` for negative values). -/
def intStr (n : ℤ) : String := if n < 0 then "-" ++ natStr n.natAbs else natStr n.toNat

/-- Left-pad a string with `'0'` characters up to width `w`. -/
def padZeros (w : ℕ) (s : String) : String := ⟨List.replicate (w - s.length) '0' ++ s.data⟩

/-- Python `f"{n:0wd}"`: zero-padded decimal of total width `w`; for a negative
number the sign occupies one of the `w` columns. -/
def pyZFill (n : ℤ) (w : ℕ) : String :=
  if n < 0 then "-" ++ padZeros (w - 1) (natStr n.natAbs) else padZeros w (natStr n.toNat)

/-- Round half to even (the rounding used by Python `format(x, '.3f')`),
applied to an exact rational. -/
def roundHalfEven (x : ℚ) : ℤ :=
  if Int.fract x < 1 / 2 then ⌊x⌋
  else if 1 / 2 < Int.fract x then ⌊x⌋ + 1
  else if ⌊x⌋ % 2 = 0 then ⌊x⌋ else ⌊x⌋ + 1

/-- Python `f"{x:.3f}"` on the exact rational value. -/
def pyFixed3 (q : ℚ) : String :=
  if q < 0 then
    "-" ++ natStr ((roundHalfEven (-q * 1000)).toNat / 1000) ++ "." ++
      padZeros 3 (natStr ((roundHalfEven (-q * 1000)).toNat % 1000))
  else
    natStr ((roundHalfEven (q * 1000)).toNat / 1000) ++ "." ++
      padZeros 3 (natStr ((roundHalfEven (q * 1000)).toNat % 1000))

/-- The characters stripped by Python `str.strip()` (ASCII whitespace). -/
def isPySpace (c : Char) : Bool :=
  c = ' ' || c = '\t' || c = '\n' || c = '\r' || c = '\x0b' || c = '\x0c'

/-- Python `str.strip()`: drop leading and trailing whitespace. -/
def pyStrip (s : String) : String :=
  ⟨((s.data.dropWhile isPySpace).reverse.dropWhile isPySpace).reverse⟩

/-- ASCII lowering of one character (Python `str.lower()` restricted to ASCII,
which covers every string the tool lowers). -/
def lowerChar (c : Char) : Char :=
  if 'A' ≤ c ∧ c ≤ 'Z' then Char.ofNat (c.toNat + 32) else c

/-- Python `str.lower()` (ASCII model). -/
def pyLower (s : String) : String := ⟨s.data.map lowerChar⟩

/-- `startsWithCh p l` holds when the character list `p` is an initial run of `l`. -/
def startsWithCh : List Char → List Char → Bool
  | [], _ => true
  | _ :: _, [] => false
  | c :: p, d :: l => c == d && startsWithCh p l

/-- `endsWithCh p l` holds when the character list `p` is a final run of `l`. -/
def endsWithCh (p l : List Char) : Bool := startsWithCh p.reverse l.reverse

/-- Split a character list at separator `sep` (the separators are consumed);
the recursive result is never empty, so extending its first group covers the
non-separator case. -/
def splitOnCh (sep : Char) : List Char → List (List Char)
  | [] => [[]]
  | c :: rest =>
    if c = sep then [] :: splitOnCh sep rest
    else (c :: (splitOnCh sep rest).headD []) :: (splitOnCh sep rest).tail

/-- The lines of a string: maximal `'\n'`-free runs (a trailing newline yields a
final empty line). -/
def splitLines (l : List Char) : List (List Char) := splitOnCh '\n' l

/-- Concatenate a list of strings (Python `''.join`). -/
def strJoin : List String → String
  | [] => ""
  | s :: rest => s ++ strJoin rest

/-- Concatenate the given lines, terminating each with `'\n'` — the exact file
content produced by a sequence of `f.write` calls that each end in a newline. -/
def joinLinesNL : List String → String
  | [] => ""
  | l :: ls => l ++ "\n" ++ joinLinesNL ls

/-- Number of lines of `s` that start with the marker `p`. -/
def countLinesWith (p : String) (s : String) : ℕ :=
  (splitLines s.data).countP (fun l => startsWithCh p.data l)

/-! ### `sub_video.py`: `format_timestamp` (lines 101-116) -/

/-- `format_timestamp(seconds, format_type)` from `sub_video.py`:
`hours = int(seconds // 3600)`, `minutes = int((seconds % 3600) // 60)`,
`secs = seconds % 60`, then branch on the format tag. -/
def format_timestamp (seconds : ℚ) (format_type : String) : String :=
  let hours : ℤ := pyInt (pyFloorDiv seconds 3600)
  let minutes : ℤ := pyInt (pyFloorDiv (pyMod seconds 3600) 60)
  let secs : ℚ := pyMod seconds 60
  if format_type = "srt" then
    let milliseconds : ℤ := pyInt ((secs - (pyInt secs : ℚ)) * 1000)
    pyZFill hours 2 ++ ":" ++ pyZFill minutes 2 ++ ":" ++ pyZFill (pyInt secs) 2 ++ "," ++
      pyZFill milliseconds 3
  else if format_type = "ass" then
    let centiseconds : ℤ := pyInt ((secs - (pyInt secs : ℚ)) * 100)
    intStr hours ++ ":" ++ pyZFill minutes 2 ++ ":" ++ pyZFill (pyInt secs) 2 ++ "." ++
      pyZFill centiseconds 2
  else
    pyZFill hours 2 ++ ":" ++ pyZFill minutes 2 ++ ":" ++ pyFixed3 secs

/-- Specification-side rendering of a zero-padded decimal field of width `w`. -/
def zpad (w n : ℕ) : String := padZeros w (natStr n)

/-! ### Data model: transcription segments and words -/

/-- A transcribed word with word-level timing (`word.start`, `word.end`, `word.word`). -/
structure Word where
  start : ℚ
  end_ : ℚ
  word : String
deriving DecidableEq

/-- A transcribed segment (`segment.start`, `segment.end`, `segment.text`,
`segment.words`); an empty `words` list models a segment without word timing
(Python `not hasattr(segment, 'words') or not segment.words`). -/
structure Segment where
  start : ℚ
  end_ : ℚ
  text : String
  words : List Word
deriving DecidableEq

/-! ### `sub_video.py`: `create_srt` (lines 118-125) -/

/-- The loop body of `create_srt`: one `f.write` per segment, with the 1-based
index carried by `enumerate(segments, start=1)`. -/
def create_srt_go : ℕ → List Segment → String
  | _, [] => ""
  | i, seg :: rest =>
    natStr i ++ "\n" ++ format_timestamp seg.start "srt" ++ " --> " ++
        format_timestamp seg.end_ "srt" ++ "\n" ++ pyStrip seg.text ++ "\n\n" ++
      create_srt_go (i + 1) rest

/-- `create_srt(segments, output_path)` from `sub_video.py`: the content written to
the output file. -/
def create_srt (segments : List Segment) : String := create_srt_go 1 segments

/-- Specification-side SRT block: index line, `start --> end` line in Format A,
trimmed text line, blank separator line. -/
def srtBlock (i : ℕ) (seg : Segment) : String :=
  natStr i ++ "\n" ++ format_timestamp seg.start "srt" ++ " --> " ++
    format_timestamp seg.end_ "srt" ++ "\n" ++ pyStrip seg.text ++ "\n\n"

/-! ### `sub_video.py`: `ASS_COLORS` (lines 22-31) and `create_ass` (lines 127-185) -/

/-- The named-color registry `ASS_COLORS`. -/
def ASS_COLORS : List (String × String) :=
  [("yellow", "&H00FFFF&"), ("white", "&HFFFFFF&"), ("blue", "&HFF0000&"),
   ("green", "&H00FF00&"), ("red", "&H0000FF&"), ("cyan", "&HFFFF00&"),
   ("magenta", "&HFF00FF&"), ("black", "&H000000&")]

/-- `ASS_COLORS.get(color.lower(), ASS_COLORS["white"])`; the default is the
registry entry for `"white"`, i.e. `"&HFFFFFF&"`. -/
def ass_color_of (color : String) : String :=
  match ASS_COLORS.lookup (pyLower color) with
  | some c => c
  | none => "&HFFFFFF&"

/-- The karaoke text loop of `create_ass` (lines 166-180): the running
`words_text` accumulator with `last_end` initialised to the segment start.
For each word, `word_duration = word.end - word.start` and
`delay = word.start - last_end`; a `\k` gap tag is emitted only when
`delay > 0`, then the `\k` word tag and the word text, each tag holding
`int(duration * 100)` centiseconds. -/
def karaokeWordsText : ℚ → List Word → String
  | _, [] => ""
  | last_end, w :: ws =>
    (if 0 < w.start - last_end then
        "\x7b\\k" ++ intStr (pyInt ((w.start - last_end) * 100)) ++ "\x7d " else "") ++
      "\x7b\\k" ++ intStr (pyInt ((w.end_ - w.start) * 100)) ++ "\x7d" ++ w.word ++ " " ++
      karaokeWordsText w.end_ ws

/-- Specification-side per-word karaoke fragment, `prev` being the end of the
previous word (or the segment start for the first word). -/
def karaokeFragment (prev : ℚ) (w : Word) : String :=
  (if 0 < w.start - prev then
      "\x7b\\k" ++ intStr (pyInt ((w.start - prev) * 100)) ++ "\x7d " else "") ++
    "\x7b\\k" ++ intStr (pyInt ((w.end_ - w.start) * 100)) ++ "\x7d" ++ w.word ++ " "

/-- One `Dialogue:` event line of `create_ass` (lines 159-185, without the
trailing newline): the karaoke form when karaoke is requested and the segment
carries words, otherwise the plain form under the caller-supplied style. -/
def dialogue_line (karaoke : Bool) (style : String) (seg : Segment) : String :=
  if karaoke && !seg.words.isEmpty then
    "Dialogue: 0," ++ format_timestamp seg.start "ass" ++ "," ++
      format_timestamp seg.end_ "ass" ++ ",Karaoke,,0,0,0,," ++
      pyStrip (karaokeWordsText seg.start seg.words)
  else
    "Dialogue: 0," ++ format_timestamp seg.start "ass" ++ "," ++
      format_timestamp seg.end_ "ass" ++ "," ++ style ++ ",,0,0,0,," ++ pyStrip seg.text

/-- The header and style lines written by `create_ass` (lines 134-156), one entry
per output line; the `""` entries are the blank lines from the `"\n\n"` writes. -/
def ass_header_lines (title : String) (ass_color : String) : List String :=
  ["[Script Info]",
   "Title: " ++ title,
   "ScriptType: v4.00+",
   "WrapStyle: 0",
   "ScaledBorderAndShadow: yes",
   "YCbCr Matrix: None",
   "PlayResX: 1920",
   "PlayResY: 1080",
   "",
   "[V4+ Styles]",
   "Format: Name, Fontname, Fontsize, PrimaryColour, SecondaryColour, OutlineColour, BackColour, Bold, Italic, Underline, StrikeOut, ScaleX, ScaleY, Spacing, Angle, BorderStyle, Outline, Shadow, Alignment, MarginL, MarginR, MarginV, Encoding",
   "Style: Default,Arial,48," ++ ass_color ++ ",&HFFFFFF&,&H000000&,&H000000&,0,0,0,0,100,100,0,0,1,2,2,2,20,20,20,1",
   "Style: Karaoke,Arial,48," ++ ass_color ++ ",&HFFFFFF&,&H000000&,&H000000&,0,0,0,0,100,100,0,0,1,2,2,2,20,20,20,1",
   "",
   "[Events]",
   "Format: Layer, Start, End, Style, Name, MarginL, MarginR, MarginV, Effect, Text"]

/-- `create_ass(segments, output_path, title, karaoke, style, color)` from
`sub_video.py`: the content written to the output file.  Every `f.write` of the
source ends in `'\n'` (the `"\n\n"` writes contribute a blank line), so the file
is exactly the newline-joined line list. -/
def create_ass (segments : List Segment) (title : String) (karaoke : Bool)
    (style : String) (color : String) : String :=
  joinLinesNL (ass_header_lines title (ass_color_of color) ++
    segments.map (dialogue_line karaoke style))

/-! ### `sub_video.py`: `sanitize_filename` (lines 72-83) -/

/-- The characters replaced by `sanitize_filename` (`'<>:"/\\|?*'`). -/
def invalid_chars : List Char := ['<', '>', ':', '"', '/', '\\', '|', '?', '*']

/-- One invalid-character replacement step (each listed character maps to `'_'`). -/
def replaceInvalid (c : Char) : Char := if c ∈ invalid_chars then '_' else c

/-- The space replacement step (`filename.replace(' ', '_')`). -/
def replaceSpace (c : Char) : Char := if c = ' ' then '_' else c

/-- `re.sub(r'[^\x00-\x7F]+', '_', ...)`: each maximal run of non-ASCII characters
collapses to a single `'_'`; the flag records being inside such a run. -/
def collapseNonAscii : Bool → List Char → List Char
  | _, [] => []
  | inRun, c :: rest =>
    if c.toNat ≤ 127 then c :: collapseNonAscii false rest
    else if inRun then collapseNonAscii true rest
    else '_' :: collapseNonAscii true rest

/-- `sanitize_filename(filename)` from `sub_video.py`: replace the invalid
characters, replace spaces, collapse non-ASCII runs, truncate to 100 characters. -/
def sanitize_filename (filename : String) : String :=
  let s1 := filename.data.map replaceInvalid
  let s2 := s1.map replaceSpace
  let s3 := collapseNonAscii false s2
  if 100 < s3.length then ⟨s3.take 100⟩ else ⟨s3⟩

/-! ### `sub_video.py`: `auto_select_model` (lines 228-256) -/

/-- The `model_sizes` table of `auto_select_model` in the order produced by
`sorted(model_sizes.items(), key=lambda x: x[1], reverse=True)` — footprints in
bytes, largest first.  The Python `None` branch (querying `psutil` and falling
back to `"medium"`) involves the external memory probe and is outside the model;
the claim concerns a supplied `memory_available`. -/
def model_sizes_desc : List (String × ℚ) :=
  [("large", 6 * 1024 * 1024 * 1024),
   ("medium", 2.5 * 1024 * 1024 * 1024),
   ("small", 1 * 1024 * 1024 * 1024),
   ("base", 500 * 1024 * 1024),
   ("tiny", 150 * 1024 * 1024)]

/-- `auto_select_model(memory_available)` with a supplied value: scan the table
from the largest footprint down, returning the first model whose footprint is
strictly below `memory_available * 0.7`, and `"tiny"` when none is. -/
def auto_select_model (memory_available : ℚ) : String :=
  let available_with_headroom := memory_available * 0.7
  match model_sizes_desc.find? (fun ms => decide (ms.2 < available_with_headroom)) with
  | some ms => ms.1
  | none => "tiny"

/-! ### `process_media` (lines 280-413): filesystem model

`process_media` orchestrates external collaborators.  The on-disk state is
modelled as a membership predicate `String → Bool`; each collaborator call
is modelled by the file it is asked to create (downloader → downloaded file,
`shutil.copy2` → sanitized copy, `ffmpeg` → temporary WAV, subtitle writers →
output files), while the model-cache effects (`ensure_model_cached`,
`WhisperModel`) touch only cache paths and are kept opaque as arbitrary
transformations.  Aborts (downloader failure, transcoder or transcription
exception) are modelled by a `false` success flag. -/

/-- Create a file at path `p`. -/
def addFile (p : String) (fs : String → Bool) : String → Bool :=
  fun x => if x = p then true else fs x

/-- `os.remove(p)`. -/
def removeFile (p : String) (fs : String → Bool) : String → Bool :=
  fun x => if x = p then false else fs x

/-- Index of the last `'.'` in a character list, if any. -/
def lastDotIdx (l : List Char) : Option ℕ :=
  (l.enum.filterMap (fun p => if p.2 = '.' then some p.1 else none)).getLast?

/-- `pathlib.Path(p).stem` (POSIX model): the final path component with its
last suffix removed; a suffix requires an interior dot (`0 < i < len - 1`). -/
def pathStem (p : String) : String :=
  let name := (splitOnCh '/' p.data).getLastD []
  match lastDotIdx name with
  | some i => if 0 < i ∧ i < name.length - 1 then ⟨name.take i⟩ else ⟨name⟩
  | none => ⟨name⟩

/-- `input_path.lower().endswith(('.mp4', '.avi', '.mkv', '.mov'))`. -/
def isVideoFile (p : String) : Bool :=
  let lp := (pyLower p).data
  endsWithCh ".mp4".data lp || endsWithCh ".avi".data lp ||
    endsWithCh ".mkv".data lp || endsWithCh ".mov".data lp

/-- The sanitized-copy path for a downloaded video (line 333):
`os.path.join(output_dir, f"{sanitize_filename(Path(input_path).stem)}.mp4")`. -/
def sanitized_copy_path (output_dir dl_result : String) : String :=
  output_dir ++ "/" ++ sanitize_filename (pathStem dl_result) ++ ".mp4"

/-- The local media path after the (optional) download and sanitized-copy steps. -/
def resolved_input_path (input_path output_dir : String) (is_yt : Bool)
    (dl_result : String) : String :=
  if is_yt then
    if dl_result ≠ sanitized_copy_path output_dir dl_result then
      sanitized_copy_path output_dir dl_result
    else dl_result
  else input_path

/-- The temporary extracted-audio path (line 346):
`os.path.join(output_dir, f"{sanitized_input_name}_temp.wav")`. -/
def temp_audio_path (input_path output_dir : String) (is_yt : Bool)
    (dl_result : String) : String :=
  output_dir ++ "/" ++
    sanitize_filename (pathStem (resolved_input_path input_path output_dir is_yt dl_result)) ++
    "_temp.wav"

/-- The subtitle-writing loop (lines 382-391): one output file per recognised
format tag. -/
def write_subtitles_fs (output_dir name : String) (formats : List String)
    (fs : String → Bool) : String → Bool :=
  formats.foldl (fun acc fmt =>
    if pyLower fmt = "srt" then addFile (output_dir ++ "/" ++ name ++ ".srt") acc
    else if pyLower fmt = "ass" then addFile (output_dir ++ "/" ++ name ++ ".ass") acc
    else acc) fs

/-- `if os.path.exists(p): os.remove(p)`. -/
def removeIfExists (p : String) (fs : String → Bool) : String → Bool :=
  if fs p then removeFile p fs else fs

/-- The cleanup block (lines 395-408): remove the temporary audio file if it
exists; when a download happened and the video is not kept, remove the
downloaded file and, when distinct, the sanitized copy. -/
def cleanup_fs (temp_audio : String) (downloaded : Option String) (input_path : String)
    (keep_video : Bool) (fs : String → Bool) : String → Bool :=
  let fs1 := removeIfExists temp_audio fs
  match downloaded with
  | none => fs1
  | some dl =>
    if keep_video then fs1
    else
      let fs2 := removeIfExists dl fs1
      if dl ≠ input_path ∧ fs2 input_path then removeFile input_path fs2 else fs2

/-- The pipeline from audio extraction to cleanup (lines 341-408), `input_path`
being the already-resolved local media path.  `extract_ok`/`transcribe_ok`
model the external transcoder and transcription calls completing without an
exception; `model_effect` is the opaque cache effect of loading the model. -/
def process_media_rest (fs : String → Bool) (input_path output_dir : String)
    (downloaded : Option String) (keep_video : Bool) (subtitle_formats : List String)
    (extract_ok transcribe_ok : Bool)
    (model_effect : (String → Bool) → String → Bool) : Bool × (String → Bool) :=
  let name := sanitize_filename (pathStem input_path)
  let temp_audio := output_dir ++ "/" ++ name ++ "_temp.wav"
  if isVideoFile input_path ∧ extract_ok = false then (false, fs)
  else
    let fs1 := if isVideoFile input_path then addFile temp_audio fs else fs
    let fs2 := model_effect fs1
    if transcribe_ok = false then (false, fs2)
    else
      let fs3 := write_subtitles_fs output_dir name subtitle_formats fs2
      (true, cleanup_fs temp_audio downloaded input_path keep_video fs3)

/-- `process_media`'s filesystem behaviour: cache resolution, optional YouTube
download and sanitized copy (lines 314-339), then `process_media_rest`.
The returned flag is `true` exactly for runs that complete successfully
(the downloader-failure `return` and raised exceptions yield `false`). -/
def process_media_fs (fs0 : String → Bool) (input_path output_dir : String)
    (keep_video : Bool) (subtitle_formats : List String)
    (is_yt dl_ok : Bool) (dl_result : String) (extract_ok transcribe_ok : Bool)
    (cache_effect model_effect : (String → Bool) → String → Bool) :
    Bool × (String → Bool) :=
  let fs1 := cache_effect fs0
  if is_yt then
    if dl_ok = false then (false, fs1)
    else
      let fs2 := addFile dl_result fs1
      let sp := sanitized_copy_path output_dir dl_result
      if dl_result ≠ sp then
        process_media_rest (addFile sp fs2) sp output_dir (some dl_result) keep_video
          subtitle_formats extract_ok transcribe_ok model_effect
      else
        process_media_rest fs2 dl_result output_dir (some dl_result) keep_video
          subtitle_formats extract_ok transcribe_ok model_effect
  else
    process_media_rest fs1 input_path output_dir none keep_video subtitle_formats
      extract_ok transcribe_ok model_effect

/-! ## Arithmetic bridge lemmas -/

theorem pyInt_intCast (n : ℤ) : pyInt (n : ℚ) = n := by
  unfold pyInt
  split
  · rw [← Int.cast_neg, Int.floor_intCast, neg_neg]
  · rw [Int.floor_intCast]

theorem pyInt_of_nonneg {q : ℚ} (h : 0 ≤ q) : pyInt q = ⌊q⌋ := by
  unfold pyInt
  rw [if_neg (not_lt.mpr h)]

theorem pyMod_nonneg (a : ℚ) {b : ℚ} (hb : 0 < b) : 0 ≤ pyMod a b := by
  unfold pyMod
  have h1 : (⌊a / b⌋ : ℚ) ≤ a / b := Int.floor_le _
  have h2 : b * (⌊a / b⌋ : ℚ) ≤ b * (a / b) := mul_le_mul_of_nonneg_left h1 hb.le
  have h3 : b * (a / b) = a := by field_simp
  linarith

theorem pyMod_lt (a : ℚ) {b : ℚ} (hb : 0 < b) : pyMod a b < b := by
  unfold pyMod
  have h1 : a / b < (⌊a / b⌋ : ℚ) + 1 := Int.lt_floor_add_one _
  have h2 : b * (a / b) < b * ((⌊a / b⌋ : ℚ) + 1) := by
    exact mul_lt_mul_of_pos_left h1 hb
  have h3 : b * (a / b) = a := by field_simp
  nlinarith

theorem floor_pyMod_div3600 (q : ℚ) : ⌊pyMod q 3600 / 60⌋ = ⌊q / 60⌋ - 60 * ⌊q / 3600⌋ := by
  have h : pyMod q 3600 / 60 = q / 60 - ((60 * ⌊q / 3600⌋ : ℤ) : ℚ) := by
    unfold pyMod; push_cast; ring
  rw [h, Int.floor_sub_int]

theorem floor_pyMod_60 (q : ℚ) : ⌊pyMod q 60⌋ = ⌊q⌋ - 60 * ⌊q / 60⌋ := by
  have h : pyMod q 60 = q - ((60 * ⌊q / 60⌋ : ℤ) : ℚ) := by
    unfold pyMod; push_cast; ring
  rw [h, Int.floor_sub_int]

theorem fract_pyMod_60 (q : ℚ) : pyMod q 60 - (⌊pyMod q 60⌋ : ℚ) = Int.fract q := by
  rw [Int.self_sub_floor]
  have h : pyMod q 60 = q - ((60 * ⌊q / 60⌋ : ℤ) : ℚ) := by
    unfold pyMod; push_cast; ring
  rw [h, Int.fract_sub_int]

theorem pyInt_pyFloorDiv (a b : ℚ) : pyInt (pyFloorDiv a b) = ⌊a / b⌋ := by
  unfold pyFloorDiv
  exact pyInt_intCast _

theorem format_timestamp_srt_eq (q : ℚ) :
    format_timestamp q "srt" =
      pyZFill (pyInt (pyFloorDiv q 3600)) 2 ++ ":" ++
        pyZFill (pyInt (pyFloorDiv (pyMod q 3600) 60)) 2 ++ ":" ++
        pyZFill (pyInt (pyMod q 60)) 2 ++ "," ++
        pyZFill (pyInt ((pyMod q 60 - (pyInt (pyMod q 60) : ℚ)) * 1000)) 3 := rfl

theorem format_timestamp_ass_eq (q : ℚ) :
    format_timestamp q "ass" =
      intStr (pyInt (pyFloorDiv q 3600)) ++ ":" ++
        pyZFill (pyInt (pyFloorDiv (pyMod q 3600) 60)) 2 ++ ":" ++
        pyZFill (pyInt (pyMod q 60)) 2 ++ "." ++
        pyZFill (pyInt ((pyMod q 60 - (pyInt (pyMod q 60) : ℚ)) * 100)) 2 := rfl

theorem pyZFill_of_nonneg {n : ℤ} (h : 0 ≤ n) (w : ℕ) : pyZFill n w = zpad w n.toNat := by
  unfold pyZFill zpad
  rw [if_neg (not_lt.mpr h)]

theorem intStr_of_nonneg {n : ℤ} (h : 0 ≤ n) : intStr n = natStr n.toNat := by
  unfold intStr
  rw [if_neg (not_lt.mpr h)]

/-! ## C1 -/

/-- C1: for `s` in `[0, 359999]`, `format_timestamp(s, "srt")` renders
`HH:MM:SS,mmm` — two-digit zero-padded hours/minutes/seconds, three-digit
zero-padded milliseconds, comma separator, components obtained by truncation
(pinned by the two sandwich inequalities); in particular
`format_timestamp(3661.2345, "srt") = "01:01:01,234"`. -/
theorem C1_format_timestamp_srt :
    (∀ q : ℚ, 0 ≤ q → q ≤ 359999 →
      ∃ hh mm ss ms : ℕ, hh < 100 ∧ mm < 60 ∧ ss < 60 ∧ ms < 1000 ∧
        (hh * 3600 + mm * 60 + ss + ms / 1000 : ℚ) ≤ q ∧
        q < (hh * 3600 + mm * 60 + ss + (ms + 1) / 1000 : ℚ) ∧
        format_timestamp q "srt" =
          zpad 2 hh ++ ":" ++ zpad 2 mm ++ ":" ++ zpad 2 ss ++ "," ++ zpad 3 ms) ∧
    format_timestamp (36612345 / 10000) "srt" = "01:01:01,234" := by
  constructor
  · intro q h0 h1
    have hq3600 : (0 : ℚ) ≤ q / 3600 := by positivity
    have hc3 : 0 ≤ ⌊q / 3600⌋ := Int.floor_nonneg.mpr hq3600
    have hc3lt : ⌊q / 3600⌋ < 100 := by
      rw [Int.floor_lt]
      push_cast
      rw [div_lt_iff₀ (by norm_num : (0 : ℚ) < 3600)]
      linarith
    have hmod3600_nonneg : 0 ≤ pyMod q 3600 := pyMod_nonneg q (by norm_num)
    have hmod3600_lt : pyMod q 3600 < 3600 := pyMod_lt q (by norm_num)
    have hm_eq : ⌊pyMod q 3600 / 60⌋ = ⌊q / 60⌋ - 60 * ⌊q / 3600⌋ := floor_pyMod_div3600 q
    have hm_nonneg : 0 ≤ ⌊q / 60⌋ - 60 * ⌊q / 3600⌋ := by
      rw [← hm_eq]
      exact Int.floor_nonneg.mpr (by positivity)
    have hm_lt : ⌊q / 60⌋ - 60 * ⌊q / 3600⌋ < 60 := by
      rw [← hm_eq, Int.floor_lt]
      push_cast
      rw [div_lt_iff₀ (by norm_num : (0 : ℚ) < 60)]
      linarith
    have hmod60_nonneg : 0 ≤ pyMod q 60 := pyMod_nonneg q (by norm_num)
    have hmod60_lt : pyMod q 60 < 60 := pyMod_lt q (by norm_num)
    have hs_eq : ⌊pyMod q 60⌋ = ⌊q⌋ - 60 * ⌊q / 60⌋ := floor_pyMod_60 q
    have hs_nonneg : 0 ≤ ⌊q⌋ - 60 * ⌊q / 60⌋ := by
      rw [← hs_eq]
      exact Int.floor_nonneg.mpr hmod60_nonneg
    have hs_lt : ⌊q⌋ - 60 * ⌊q / 60⌋ < 60 := by
      rw [← hs_eq, Int.floor_lt]
      push_cast
      linarith
    have hfr0 : 0 ≤ Int.fract q := Int.fract_nonneg q
    have hfr1 : Int.fract q < 1 := Int.fract_lt_one q
    have hms_nonneg : 0 ≤ ⌊Int.fract q * 1000⌋ := Int.floor_nonneg.mpr (by positivity)
    have hms_lt : ⌊Int.fract q * 1000⌋ < 1000 := by
      rw [Int.floor_lt]
      push_cast
      nlinarith
    have hmsle : (⌊Int.fract q * 1000⌋ : ℚ) ≤ Int.fract q * 1000 := Int.floor_le _
    have hmslt : Int.fract q * 1000 < (⌊Int.fract q * 1000⌋ : ℚ) + 1 := Int.lt_floor_add_one _
    have hq_split : (⌊q⌋ : ℚ) + Int.fract q = q := Int.floor_add_fract q
    have hc3Q : ((⌊q / 3600⌋.toNat : ℕ) : ℚ) = ((⌊q / 3600⌋ : ℤ) : ℚ) := by
      exact_mod_cast Int.toNat_of_nonneg hc3
    have hmQ : (((⌊q / 60⌋ - 60 * ⌊q / 3600⌋).toNat : ℕ) : ℚ) =
        ((⌊q / 60⌋ - 60 * ⌊q / 3600⌋ : ℤ) : ℚ) := by
      exact_mod_cast Int.toNat_of_nonneg hm_nonneg
    have hsQ : (((⌊q⌋ - 60 * ⌊q / 60⌋).toNat : ℕ) : ℚ) = ((⌊q⌋ - 60 * ⌊q / 60⌋ : ℤ) : ℚ) := by
      exact_mod_cast Int.toNat_of_nonneg hs_nonneg
    have hmsQ : ((⌊Int.fract q * 1000⌋.toNat : ℕ) : ℚ) = ((⌊Int.fract q * 1000⌋ : ℤ) : ℚ) := by
      exact_mod_cast Int.toNat_of_nonneg hms_nonneg
    refine ⟨⌊q / 3600⌋.toNat, (⌊q / 60⌋ - 60 * ⌊q / 3600⌋).toNat,
      (⌊q⌋ - 60 * ⌊q / 60⌋).toNat, ⌊Int.fract q * 1000⌋.toNat, ?_, ?_, ?_, ?_, ?_, ?_, ?_⟩
    · omega
    · omega
    · omega
    · omega
    · rw [hc3Q, hmQ, hsQ, hmsQ]
      push_cast
      linarith
    · rw [hc3Q, hmQ, hsQ, hmsQ]
      push_cast
      linarith
    · rw [format_timestamp_srt_eq, pyInt_pyFloorDiv, pyInt_pyFloorDiv,
        pyInt_of_nonneg hmod60_nonneg, fract_pyMod_60,
        pyInt_of_nonneg (by positivity : (0 : ℚ) ≤ Int.fract q * 1000),
        hm_eq, hs_eq, pyZFill_of_nonneg hc3, pyZFill_of_nonneg hm_nonneg,
        pyZFill_of_nonneg hs_nonneg, pyZFill_of_nonneg hms_nonneg]
  · decide

/-- C1 witness: the general statement applied at `s = 3661.2345`. -/
theorem C1_format_timestamp_srt_witness :
    (0 : ℚ) ≤ 36612345 / 10000 ∧ (36612345 / 10000 : ℚ) ≤ 359999 ∧
    (∃ hh mm ss ms : ℕ, hh < 100 ∧ mm < 60 ∧ ss < 60 ∧ ms < 1000 ∧
      (hh * 3600 + mm * 60 + ss + ms / 1000 : ℚ) ≤ 36612345 / 10000 ∧
      (36612345 / 10000 : ℚ) < (hh * 3600 + mm * 60 + ss + (ms + 1) / 1000 : ℚ) ∧
      format_timestamp (36612345 / 10000) "srt" =
        zpad 2 hh ++ ":" ++ zpad 2 mm ++ ":" ++ zpad 2 ss ++ "," ++ zpad 3 ms) :=
  ⟨by norm_num, by norm_num,
    C1_format_timestamp_srt.1 (36612345 / 10000) (by norm_num) (by norm_num)⟩

/-! ## C5 -/

/-- C5: for every non-negative `s`, `format_timestamp(s, "ass")` renders
`H:MM:SS.cc` — plain (unpadded) decimal hours, two-digit zero-padded minutes,
seconds and centiseconds, period separator, components obtained by truncation;
in particular `format_timestamp(3661.2345, "ass") = "1:01:01.23"`. -/
theorem C5_format_timestamp_ass :
    (∀ q : ℚ, 0 ≤ q →
      ∃ hh mm ss cc : ℕ, mm < 60 ∧ ss < 60 ∧ cc < 100 ∧
        (hh * 3600 + mm * 60 + ss + cc / 100 : ℚ) ≤ q ∧
        q < (hh * 3600 + mm * 60 + ss + (cc + 1) / 100 : ℚ) ∧
        format_timestamp q "ass" =
          natStr hh ++ ":" ++ zpad 2 mm ++ ":" ++ zpad 2 ss ++ "." ++ zpad 2 cc) ∧
    format_timestamp (36612345 / 10000) "ass" = "1:01:01.23" := by
  constructor
  · intro q h0
    have hq3600 : (0 : ℚ) ≤ q / 3600 := by positivity
    have hc3 : 0 ≤ ⌊q / 3600⌋ := Int.floor_nonneg.mpr hq3600
    have hmod3600_nonneg : 0 ≤ pyMod q 3600 := pyMod_nonneg q (by norm_num)
    have hmod3600_lt : pyMod q 3600 < 3600 := pyMod_lt q (by norm_num)
    have hm_eq : ⌊pyMod q 3600 / 60⌋ = ⌊q / 60⌋ - 60 * ⌊q / 3600⌋ := floor_pyMod_div3600 q
    have hm_nonneg : 0 ≤ ⌊q / 60⌋ - 60 * ⌊q / 3600⌋ := by
      rw [← hm_eq]
      exact Int.floor_nonneg.mpr (by positivity)
    have hm_lt : ⌊q / 60⌋ - 60 * ⌊q / 3600⌋ < 60 := by
      rw [← hm_eq, Int.floor_lt]
      push_cast
      rw [div_lt_iff₀ (by norm_num : (0 : ℚ) < 60)]
      linarith
    have hmod60_nonneg : 0 ≤ pyMod q 60 := pyMod_nonneg q (by norm_num)
    have hmod60_lt : pyMod q 60 < 60 := pyMod_lt q (by norm_num)
    have hs_eq : ⌊pyMod q 60⌋ = ⌊q⌋ - 60 * ⌊q / 60⌋ := floor_pyMod_60 q
    have hs_nonneg : 0 ≤ ⌊q⌋ - 60 * ⌊q / 60⌋ := by
      rw [← hs_eq]
      exact Int.floor_nonneg.mpr hmod60_nonneg
    have hs_lt : ⌊q⌋ - 60 * ⌊q / 60⌋ < 60 := by
      rw [← hs_eq, Int.floor_lt]
      push_cast
      linarith
    have hfr0 : 0 ≤ Int.fract q := Int.fract_nonneg q
    have hfr1 : Int.fract q < 1 := Int.fract_lt_one q
    have hcc_nonneg : 0 ≤ ⌊Int.fract q * 100⌋ := Int.floor_nonneg.mpr (by positivity)
    have hcc_lt : ⌊Int.fract q * 100⌋ < 100 := by
      rw [Int.floor_lt]
      push_cast
      nlinarith
    have hccle : (⌊Int.fract q * 100⌋ : ℚ) ≤ Int.fract q * 100 := Int.floor_le _
    have hcclt : Int.fract q * 100 < (⌊Int.fract q * 100⌋ : ℚ) + 1 := Int.lt_floor_add_one _
    have hq_split : (⌊q⌋ : ℚ) + Int.fract q = q := Int.floor_add_fract q
    have hc3Q : ((⌊q / 3600⌋.toNat : ℕ) : ℚ) = ((⌊q / 3600⌋ : ℤ) : ℚ) := by
      exact_mod_cast Int.toNat_of_nonneg hc3
    have hmQ : (((⌊q / 60⌋ - 60 * ⌊q / 3600⌋).toNat : ℕ) : ℚ) =
        ((⌊q / 60⌋ - 60 * ⌊q / 3600⌋ : ℤ) : ℚ) := by
      exact_mod_cast Int.toNat_of_nonneg hm_nonneg
    have hsQ : (((⌊q⌋ - 60 * ⌊q / 60⌋).toNat : ℕ) : ℚ) = ((⌊q⌋ - 60 * ⌊q / 60⌋ : ℤ) : ℚ) := by
      exact_mod_cast Int.toNat_of_nonneg hs_nonneg
    have hccQ : ((⌊Int.fract q * 100⌋.toNat : ℕ) : ℚ) = ((⌊Int.fract q * 100⌋ : ℤ) : ℚ) := by
      exact_mod_cast Int.toNat_of_nonneg hcc_nonneg
    refine ⟨⌊q / 3600⌋.toNat, (⌊q / 60⌋ - 60 * ⌊q / 3600⌋).toNat,
      (⌊q⌋ - 60 * ⌊q / 60⌋).toNat, ⌊Int.fract q * 100⌋.toNat, ?_, ?_, ?_, ?_, ?_, ?_⟩
    · omega
    · omega
    · omega
    · rw [hc3Q, hmQ, hsQ, hccQ]
      push_cast
      linarith
    · rw [hc3Q, hmQ, hsQ, hccQ]
      push_cast
      linarith
    · rw [format_timestamp_ass_eq, pyInt_pyFloorDiv, pyInt_pyFloorDiv,
        pyInt_of_nonneg hmod60_nonneg, fract_pyMod_60,
        pyInt_of_nonneg (by positivity : (0 : ℚ) ≤ Int.fract q * 100),
        hm_eq, hs_eq, intStr_of_nonneg hc3, pyZFill_of_nonneg hm_nonneg,
        pyZFill_of_nonneg hs_nonneg, pyZFill_of_nonneg hcc_nonneg]
  · decide

/-- C5 witness: the general statement applied at `s = 3661.2345`. -/
theorem C5_format_timestamp_ass_witness :
    (0 : ℚ) ≤ 36612345 / 10000 ∧
    (∃ hh mm ss cc : ℕ, mm < 60 ∧ ss < 60 ∧ cc < 100 ∧
      (hh * 3600 + mm * 60 + ss + cc / 100 : ℚ) ≤ 36612345 / 10000 ∧
      (36612345 / 10000 : ℚ) < (hh * 3600 + mm * 60 + ss + (cc + 1) / 100 : ℚ) ∧
      format_timestamp (36612345 / 10000) "ass" =
        natStr hh ++ ":" ++ zpad 2 mm ++ ":" ++ zpad 2 ss ++ "." ++ zpad 2 cc) :=
  ⟨by norm_num, C5_format_timestamp_ass.1 (36612345 / 10000) (by norm_num)⟩

/-! ## C6 -/

theorem pyZFill_of_neg {n : ℤ} (h : n < 0) (w : ℕ) :
    pyZFill n w = "-" ++ padZeros (w - 1) (natStr n.natAbs) := by
  unfold pyZFill
  rw [if_pos h]

/-- C6 counterexample: on the negative input `-0.5` the code does not fail:
`format_timestamp` returns the malformed string `"-1:59:59,500"`
(hours `int(-0.5 // 3600) = -1`, `-0.5 % 3600 = 3599.5`, `-0.5 % 60 = 59.5`). -/
theorem C6_counterexample : format_timestamp (-1 / 2) "srt" = "-1:59:59,500" := by decide

/-- C6 amended: for strictly negative seconds, `format_timestamp` raises no error;
it returns a string whose hours field is negative, so the output begins with `'-'`
and is malformed for the `HH:MM:SS,mmm` shape. -/
theorem C6_negative_input (q : ℚ) (h : q < 0) :
    (format_timestamp q "srt").data.head? = some '-' := by
  have hq : q / 3600 < 0 := div_neg_of_neg_of_pos h (by norm_num)
  have hfl : ⌊q / 3600⌋ < 0 := by
    rw [Int.floor_lt]
    push_cast
    exact hq
  rw [format_timestamp_srt_eq, pyInt_pyFloorDiv, pyZFill_of_neg hfl]
  rfl

/-- C6 witness: the amended statement applied at `s = -0.5`. -/
theorem C6_negative_input_witness :
    (-1 / 2 : ℚ) < 0 ∧ (format_timestamp (-1 / 2) "srt").data.head? = some '-' :=
  ⟨by norm_num, C6_negative_input (-1 / 2) (by norm_num)⟩

/-! ## C3 -/

theorem create_srt_go_eq (i : ℕ) (segs : List Segment) :
    create_srt_go i segs = strJoin (List.zipWith srtBlock (List.range' i segs.length) segs) := by
  induction segs generalizing i with
  | nil => rfl
  | cons s rest ih =>
    simp only [create_srt_go, List.length_cons, List.range'_succ, List.zipWith_cons_cons,
      strJoin, srtBlock]
    rw [ih]

/-- C3: `create_srt` writes one block per segment in order — the block of the
segment at (0-based) position `k` carries index line `k + 1`, a
`start --> end` line in Format A, the stripped text and a blank separator —
and on the three example segments it produces exactly the three expected
numbered blocks. -/
theorem C3_create_srt_blocks :
    (∀ segs : List Segment,
      create_srt segs = strJoin (List.zipWith srtBlock (List.range' 1 segs.length) segs)) ∧
    create_srt [⟨0, 1, "a", []⟩, ⟨1, 5 / 2, "b", []⟩, ⟨5 / 2, 4, "c", []⟩] =
      "1\n00:00:00,000 --> 00:00:01,000\na\n\n2\n00:00:01,000 --> 00:00:02,500\nb\n\n3\n00:00:02,500 --> 00:00:04,000\nc\n\n" :=
  ⟨fun segs => create_srt_go_eq 1 segs, by decide⟩

/-! ## C2 -/

theorem karaokeWordsText_eq (st : ℚ) (ws : List Word) :
    karaokeWordsText st ws =
      strJoin (List.zipWith karaokeFragment (st :: ws.map Word.end_) ws) := by
  induction ws generalizing st with
  | nil => rfl
  | cons w rest ih =>
    simp only [karaokeWordsText, List.map_cons, List.zipWith_cons_cons, strJoin,
      karaokeFragment]
    rw [ih]

/-- C2: with karaoke enabled the dialogue text is built word by word — each word
contributes the gap tag to the end of the previous word (segment start for the
first), emitted only when the gap is strictly positive, then its own duration
tag (`int(duration * 100)` centiseconds) and its text; on the example words
`[(0,0.5,"hi"),(0.6,1.0,"there")]` of a segment spanning `[0,1]` this yields a
10-centisecond gap tag between the word tags of 50 and 40 centiseconds. -/
theorem C2_karaoke_words :
    (∀ (st : ℚ) (ws : List Word),
      karaokeWordsText st ws =
        strJoin (List.zipWith karaokeFragment (st :: ws.map Word.end_) ws)) ∧
    dialogue_line true "Default" ⟨0, 1, "hi there", [⟨0, 1 / 2, "hi"⟩, ⟨3 / 5, 1, "there"⟩]⟩ =
      "Dialogue: 0,0:00:00.00,0:00:01.00,Karaoke,,0,0,0,,\x7b\\k50\x7dhi \x7b\\k10\x7d \x7b\\k40\x7dthere" :=
  ⟨karaokeWordsText_eq, by decide⟩

/-! ## C4 -/

theorem auto_select_model_eq (m : ℚ) :
    auto_select_model m =
      if 6 * 1024 * 1024 * 1024 < m * (7 / 10) then "large"
      else if 2.5 * 1024 * 1024 * 1024 < m * (7 / 10) then "medium"
      else if 1 * 1024 * 1024 * 1024 < m * (7 / 10) then "small"
      else if 500 * 1024 * 1024 < m * (7 / 10) then "base"
      else "tiny" := by
  have h07 : m * (0.7 : ℚ) = m * (7 / 10) := by norm_num
  simp only [auto_select_model, model_sizes_desc, h07]
  by_cases h1 : 6 * 1024 * 1024 * 1024 < m * (7 / 10)
  · rw [List.find?_cons_of_pos _ (by simpa using h1), if_pos h1]
  · rw [List.find?_cons_of_neg _ (by simpa using h1), if_neg h1]
    by_cases h2 : 2.5 * 1024 * 1024 * 1024 < m * (7 / 10)
    · rw [List.find?_cons_of_pos _ (by simpa using h2), if_pos h2]
    · rw [List.find?_cons_of_neg _ (by simpa using h2), if_neg h2]
      by_cases h3 : 1 * 1024 * 1024 * 1024 < m * (7 / 10)
      · rw [List.find?_cons_of_pos _ (by simpa using h3), if_pos h3]
      · rw [List.find?_cons_of_neg _ (by simpa using h3), if_neg h3]
        by_cases h4 : 500 * 1024 * 1024 < m * (7 / 10)
        · rw [List.find?_cons_of_pos _ (by simpa using h4), if_pos h4]
        · rw [List.find?_cons_of_neg _ (by simpa using h4), if_neg h4]
          by_cases h5 : 150 * 1024 * 1024 < m * (7 / 10)
          · rw [List.find?_cons_of_pos _ (by simpa using h5)]
          · rw [List.find?_cons_of_neg _ (by simpa using h5)]
            rfl

/-- C4: `auto_select_model` compares the fixed footprints against 0.7 times the
supplied available memory, scanning large → medium → small → base → tiny, and
returns the first model whose footprint is strictly smaller (falling back to
`"tiny"`); characterised here by the exact selection ranges.  In particular
3 GiB yields `"small"` and 10 GiB yields `"large"`. -/
theorem C4_auto_select_model :
    (∀ m : ℚ,
      (auto_select_model m = "large" ↔ 6 * 1024 * 1024 * 1024 < m * (7 / 10)) ∧
      (auto_select_model m = "medium" ↔
        2.5 * 1024 * 1024 * 1024 < m * (7 / 10) ∧ m * (7 / 10) ≤ 6 * 1024 * 1024 * 1024) ∧
      (auto_select_model m = "small" ↔
        1 * 1024 * 1024 * 1024 < m * (7 / 10) ∧ m * (7 / 10) ≤ 2.5 * 1024 * 1024 * 1024) ∧
      (auto_select_model m = "base" ↔
        500 * 1024 * 1024 < m * (7 / 10) ∧ m * (7 / 10) ≤ 1 * 1024 * 1024 * 1024) ∧
      (auto_select_model m = "tiny" ↔ m * (7 / 10) ≤ 500 * 1024 * 1024)) ∧
    auto_select_model (3 * 1024 * 1024 * 1024) = "small" ∧
    auto_select_model (10 * 1024 * 1024 * 1024) = "large" := by
  refine ⟨fun m => ?_, by decide, by decide⟩
  rw [auto_select_model_eq]
  split_ifs with h1 h2 h3 h4 <;>
    refine ⟨?_, ?_, ?_, ?_, ?_⟩ <;>
    simp only [String.reduceEq, iff_true, iff_false, false_iff, true_iff, not_and, not_le,
      not_lt] <;>
    first
      | linarith
      | (intro h; linarith)
      | (constructor <;> linarith)

/-! ## C8 and C10: `sanitize_filename` -/

theorem listMapId {f : Char → Char} : ∀ {l : List Char}, (∀ c ∈ l, f c = c) → l.map f = l
  | [], _ => rfl
  | c :: l, h => by
    simp only [List.map_cons, h c (List.mem_cons_self c l),
      listMapId (fun d hd => h d (List.mem_cons_of_mem c hd))]

theorem collapse_mem {c : Char} :
    ∀ (b : Bool) (l : List Char), c ∈ collapseNonAscii b l →
      c = '_' ∨ (c ∈ l ∧ c.toNat ≤ 127)
  | _, [], h => absurd h (List.not_mem_nil c)
  | b, d :: rest, h => by
    unfold collapseNonAscii at h
    by_cases hd : d.toNat ≤ 127
    · rw [if_pos hd] at h
      rcases List.mem_cons.mp h with rfl | h'
      · exact Or.inr ⟨List.mem_cons_self _ _, hd⟩
      · rcases collapse_mem false rest h' with h'' | ⟨hmem, hle⟩
        · exact Or.inl h''
        · exact Or.inr ⟨List.mem_cons_of_mem _ hmem, hle⟩
    · rw [if_neg hd] at h
      by_cases hb : b
      · rw [if_pos hb] at h
        rcases collapse_mem true rest h with h'' | ⟨hmem, hle⟩
        · exact Or.inl h''
        · exact Or.inr ⟨List.mem_cons_of_mem _ hmem, hle⟩
      · rw [if_neg hb] at h
        rcases List.mem_cons.mp h with rfl | h'
        · exact Or.inl rfl
        · rcases collapse_mem true rest h' with h'' | ⟨hmem, hle⟩
          · exact Or.inl h''
          · exact Or.inr ⟨List.mem_cons_of_mem _ hmem, hle⟩

theorem collapse_id : ∀ {l : List Char}, (∀ c ∈ l, c.toNat ≤ 127) →
    collapseNonAscii false l = l
  | [], _ => rfl
  | c :: l, h => by
    unfold collapseNonAscii
    rw [if_pos (h c (List.mem_cons_self c l)),
      collapse_id (fun d hd => h d (List.mem_cons_of_mem c hd))]

theorem replaceInvalid_not_invalid (a : Char) : replaceInvalid a ∉ invalid_chars := by
  unfold replaceInvalid
  split
  · decide
  · assumption

theorem replaceSpace_ne_space (b : Char) : replaceSpace b ≠ ' ' := by
  unfold replaceSpace
  split
  · decide
  · assumption

theorem replaceSpace_not_invalid {b : Char} (h : b ∉ invalid_chars) :
    replaceSpace b ∉ invalid_chars := by
  unfold replaceSpace
  split
  · decide
  · exact h

/-- Character-level facts about `sanitize_filename` output: at most 100
characters, all ASCII, none of the replaced characters, no space. -/
theorem sanitize_filename_chars (s : String) :
    (sanitize_filename s).length ≤ 100 ∧
    ∀ c ∈ (sanitize_filename s).data, c.toNat ≤ 127 ∧ c ∉ invalid_chars ∧ c ≠ ' ' := by
  have hmem : ∀ c ∈ (sanitize_filename s).data,
      c ∈ collapseNonAscii false ((s.data.map replaceInvalid).map replaceSpace) := by
    intro c hc
    simp only [sanitize_filename] at hc
    split at hc
    · exact List.take_subset _ _ hc
    · exact hc
  constructor
  · simp only [sanitize_filename]
    split
    · next h =>
      show (List.take 100 _).length ≤ 100
      simp [List.length_take]
    · next h =>
      show List.length _ ≤ 100
      omega
  · intro c hc
    rcases collapse_mem false _ (hmem c hc) with rfl | ⟨hmem2, hle⟩
    · refine ⟨by decide, by decide, by decide⟩
    · refine ⟨hle, ?_, ?_⟩
      · rcases List.mem_map.mp hmem2 with ⟨b, hb, rfl⟩
        rcases List.mem_map.mp hb with ⟨a, _, rfl⟩
        exact replaceSpace_not_invalid (replaceInvalid_not_invalid a)
      · rcases List.mem_map.mp hmem2 with ⟨b, _, rfl⟩
        exact replaceSpace_ne_space b

/-- C8 counterexample: `sanitize_filename "."` is `"."`, and `'.'` is neither an
ASCII letter, nor a digit, nor an underscore — so the output alphabet is not the
claimed letters/digits/underscore set. -/
theorem C8_counterexample :
    sanitize_filename "." = "." ∧ '.' ∈ (sanitize_filename ".").data ∧
      ¬ ('.'.isAlpha = true ∨ '.'.isDigit = true ∨ '.' = '_') := by decide

/-- C8 amended: `sanitize_filename` returns at most 100 characters, all ASCII
(codepoint ≤ 127) and none of them a replaced character (`<>:"/\|?*`) or a
space; other ASCII characters such as `'.'` are preserved, so the output is not
restricted to letters/digits/underscore. -/
theorem C8_sanitize_bounds (s : String) :
    (sanitize_filename s).length ≤ 100 ∧
    ∀ c ∈ (sanitize_filename s).data, c.toNat ≤ 127 ∧ c ∉ invalid_chars ∧ c ≠ ' ' :=
  sanitize_filename_chars s

/-- C8 witness: the amended statement applied at `"a b.c"` and its character `'a'`. -/
theorem C8_sanitize_bounds_witness :
    (sanitize_filename "a b.c").length ≤ 100 ∧
      'a'.toNat ≤ 127 ∧ 'a' ∉ invalid_chars ∧ 'a' ≠ ' ' :=
  ⟨(C8_sanitize_bounds "a b.c").1, (C8_sanitize_bounds "a b.c").2 'a' (by decide)⟩

/-- C10: `sanitize_filename` is idempotent — its output contains no character it
would replace, is all-ASCII (so the non-ASCII collapse is the identity on it)
and is already within the length bound. -/
theorem C10_sanitize_idempotent (s : String) :
    sanitize_filename (sanitize_filename s) = sanitize_filename s := by
  obtain ⟨hlen, hchars⟩ := sanitize_filename_chars s
  set t := sanitize_filename s with ht
  have h1 : t.data.map replaceInvalid = t.data :=
    listMapId fun c hc => by
      unfold replaceInvalid
      rw [if_neg (hchars c hc).2.1]
  have h2 : t.data.map replaceSpace = t.data :=
    listMapId fun c hc => by
      unfold replaceSpace
      rw [if_neg (hchars c hc).2.2]
  have h3 : collapseNonAscii false t.data = t.data :=
    collapse_id fun c hc => (hchars c hc).1
  have hlen' : ¬ 100 < t.data.length := not_lt.mpr hlen
  simp only [sanitize_filename, h1, h2, h3]
  rw [if_neg hlen']

/-! ## C7: line structure of the ASS file -/

theorem splitOnCh_append {sep : Char} :
    ∀ (xs ys : List Char), (∀ c ∈ xs, c ≠ sep) →
      splitOnCh sep (xs ++ sep :: ys) = xs :: splitOnCh sep ys
  | [], ys, _ => by simp [splitOnCh]
  | c :: xs, ys, h => by
    have hc : c ≠ sep := h c (List.mem_cons_self c xs)
    have ih := splitOnCh_append xs ys (fun d hd => h d (List.mem_cons_of_mem c hd))
    rw [List.cons_append]
    conv_lhs => unfold splitOnCh
    rw [if_neg hc, ih]
    simp

theorem splitLines_joinLinesNL :
    ∀ ls : List String, (∀ l ∈ ls, '\n' ∉ l.data) →
      splitLines (joinLinesNL ls).data = ls.map String.data ++ [[]]
  | [], _ => rfl
  | l :: ls, h => by
    have hl : ∀ c ∈ l.data, c ≠ '\n' := by
      intro c hc heq
      exact h l (List.mem_cons_self l ls) (heq ▸ hc)
    have ih := splitLines_joinLinesNL ls (fun l' hl' => h l' (List.mem_cons_of_mem l hl'))
    show splitLines ((l ++ "\n") ++ joinLinesNL ls).data = _
    rw [String.data_append, String.data_append]
    have : (l.data ++ "\n".data) ++ (joinLinesNL ls).data =
        l.data ++ '\n' :: (joinLinesNL ls).data := by simp
    rw [this]
    unfold splitLines at ih ⊢
    rw [splitOnCh_append _ _ hl, ih]
    simp

theorem mem_of_mem_dropWhileCh {c : Char} {p : Char → Bool} :
    ∀ {l : List Char}, c ∈ l.dropWhile p → c ∈ l
  | a :: l, h => by
    by_cases ha : p a
    · rw [List.dropWhile_cons_of_pos ha] at h
      exact List.mem_cons_of_mem a (mem_of_mem_dropWhileCh h)
    · rw [List.dropWhile_cons_of_neg ha] at h
      exact h

theorem mem_pyStrip {c : Char} {s : String} (h : c ∈ (pyStrip s).data) : c ∈ s.data := by
  unfold pyStrip at h
  simp only [List.mem_reverse] at h
  have h1 := mem_of_mem_dropWhileCh h
  simp only [List.mem_reverse] at h1
  exact mem_of_mem_dropWhileCh h1

theorem noNL_append {s t : String} (hs : '\n' ∉ s.data) (ht : '\n' ∉ t.data) :
    '\n' ∉ (s ++ t).data := by
  rw [String.data_append]
  intro h
  rcases List.mem_append.mp h with h' | h'
  · exact hs h'
  · exact ht h'

theorem noNL_natToDigitsAux : ∀ fuel n, '\n' ∉ natToDigitsAux fuel n
  | 0, _ => List.not_mem_nil _
  | fuel + 1, n => by
    unfold natToDigitsAux
    split
    · exact List.not_mem_nil _
    · intro h
      rcases List.mem_append.mp h with h' | h'
      · exact noNL_natToDigitsAux fuel (n / 10) h'
      · have hd : n % 10 < 10 := Nat.mod_lt _ (by norm_num)
        have hne : ∀ d, d < 10 → Char.ofNat (48 + d) ≠ '\n' := by decide
        exact hne (n % 10) hd (List.mem_singleton.mp h').symm

theorem noNL_natStr (n : ℕ) : '\n' ∉ (natStr n).data := by
  unfold natStr
  split
  · decide
  · exact noNL_natToDigitsAux _ _

theorem noNL_intStr (n : ℤ) : '\n' ∉ (intStr n).data := by
  unfold intStr
  split
  · exact noNL_append (by decide) (noNL_natStr _)
  · exact noNL_natStr _

theorem noNL_padZeros (w : ℕ) {s : String} (h : '\n' ∉ s.data) :
    '\n' ∉ (padZeros w s).data := by
  unfold padZeros
  intro hmem
  rcases List.mem_append.mp hmem with h' | h'
  · exact absurd (List.eq_of_mem_replicate h') (by decide)
  · exact h h'

theorem noNL_pyZFill (n : ℤ) (w : ℕ) : '\n' ∉ (pyZFill n w).data := by
  unfold pyZFill
  split
  · exact noNL_append (by decide) (noNL_padZeros _ (noNL_natStr _))
  · exact noNL_padZeros _ (noNL_natStr _)

theorem noNL_pyFixed3 (q : ℚ) : '\n' ∉ (pyFixed3 q).data := by
  unfold pyFixed3
  split
  · exact noNL_append (noNL_append (noNL_append (by decide) (noNL_natStr _)) (by decide))
      (noNL_padZeros _ (noNL_natStr _))
  · exact noNL_append (noNL_append (noNL_natStr _) (by decide))
      (noNL_padZeros _ (noNL_natStr _))

theorem noNL_format_timestamp (q : ℚ) (fmt : String) :
    '\n' ∉ (format_timestamp q fmt).data := by
  unfold format_timestamp
  split
  · exact noNL_append (noNL_append (noNL_append (noNL_append (noNL_append (noNL_append
      (noNL_pyZFill _ _) (by decide)) (noNL_pyZFill _ _)) (by decide)) (noNL_pyZFill _ _))
      (by decide)) (noNL_pyZFill _ _)
  · split
    · exact noNL_append (noNL_append (noNL_append (noNL_append (noNL_append (noNL_append
        (noNL_intStr _) (by decide)) (noNL_pyZFill _ _)) (by decide)) (noNL_pyZFill _ _))
        (by decide)) (noNL_pyZFill _ _)
    · exact noNL_append (noNL_append (noNL_append (noNL_append
        (noNL_pyZFill _ _) (by decide)) (noNL_pyZFill _ _)) (by decide)) (noNL_pyFixed3 _)

theorem noNL_karaokeWordsText :
    ∀ (st : ℚ) (ws : List Word), (∀ w ∈ ws, '\n' ∉ w.word.data) →
      '\n' ∉ (karaokeWordsText st ws).data
  | _, [], _ => List.not_mem_nil _
  | st, w :: ws, h => by
    unfold karaokeWordsText
    have hw : '\n' ∉ w.word.data := h w (List.mem_cons_self w ws)
    have ih := noNL_karaokeWordsText w.end_ ws (fun w' hw' => h w' (List.mem_cons_of_mem w hw'))
    have hgap : '\n' ∉ ((if 0 < w.start - st then
        "\x7b\\k" ++ intStr (pyInt ((w.start - st) * 100)) ++ "\x7d " else "") : String).data := by
      split
      · exact noNL_append (noNL_append (by decide) (noNL_intStr _)) (by decide)
      · decide
    exact noNL_append (noNL_append (noNL_append (noNL_append (noNL_append (noNL_append
      hgap (by decide)) (noNL_intStr _)) (by decide)) hw) (by decide)) ih

theorem noNL_dialogue_line (kar : Bool) (style : String) (seg : Segment)
    (hstyle : '\n' ∉ style.data) (htext : '\n' ∉ seg.text.data)
    (hwords : ∀ w ∈ seg.words, '\n' ∉ w.word.data) :
    '\n' ∉ (dialogue_line kar style seg).data := by
  unfold dialogue_line
  split
  · exact noNL_append (noNL_append (noNL_append (noNL_append (noNL_append
      (by decide) (noNL_format_timestamp _ _)) (by decide)) (noNL_format_timestamp _ _))
      (by decide)) (fun hm => noNL_karaokeWordsText _ _ hwords (mem_pyStrip hm))
  · exact noNL_append (noNL_append (noNL_append (noNL_append (noNL_append (noNL_append
      (noNL_append (by decide) (noNL_format_timestamp _ _)) (by decide))
      (noNL_format_timestamp _ _)) (by decide)) hstyle) (by decide))
      (fun hm => htext (mem_pyStrip hm))

theorem noNL_ass_color_of (color : String) : '\n' ∉ (ass_color_of color).data := by
  unfold ass_color_of
  split
  · next c hc =>
    simp only [ASS_COLORS, List.lookup] at hc
    repeat' split at hc
    all_goals first
      | (injection hc with h; subst h; decide)
      | (simp at hc)
  · decide

theorem dialogue_line_startsD (kar : Bool) (style : String) (seg : Segment) :
    startsWithCh "Dialogue:".data (dialogue_line kar style seg).data = true := by
  unfold dialogue_line
  split <;> rfl

theorem dialogue_line_not_startsS (kar : Bool) (style : String) (seg : Segment) :
    startsWithCh "Style:".data (dialogue_line kar style seg).data = false := by
  unfold dialogue_line
  split <;> rfl

theorem header_countS (title col : String) :
    ((ass_header_lines title col).map String.data).countP
      (fun l => startsWithCh "Style:".data l) = 2 := rfl

theorem header_countD (title col : String) :
    ((ass_header_lines title col).map String.data).countP
      (fun l => startsWithCh "Dialogue:".data l) = 0 := rfl

theorem noNL_header_lines (title col : String) (htitle : '\n' ∉ title.data)
    (hcol : '\n' ∉ col.data) : ∀ l ∈ ass_header_lines title col, '\n' ∉ l.data := by
  intro l hl
  simp only [ass_header_lines, List.mem_cons, List.not_mem_nil, or_false] at hl
  rcases hl with rfl | rfl | rfl | rfl | rfl | rfl | rfl | rfl | rfl | rfl | rfl | rfl | rfl
    | rfl | rfl | rfl
  · decide
  · exact noNL_append (by decide) htitle
  · decide
  · decide
  · decide
  · decide
  · decide
  · decide
  · decide
  · decide
  · decide
  · exact noNL_append (noNL_append (by decide) hcol) (by decide)
  · exact noNL_append (noNL_append (by decide) hcol) (by decide)
  · decide
  · decide
  · decide

/-- The lines of the generated ASS file are exactly the header lines, the
dialogue lines, and one final empty line, provided no embedded text carries a
newline. -/
theorem create_ass_lines (segs : List Segment) (title style color : String) (kar : Bool)
    (htitle : '\n' ∉ title.data) (hstyle : '\n' ∉ style.data)
    (hsegs : ∀ seg ∈ segs, '\n' ∉ seg.text.data ∧ ∀ w ∈ seg.words, '\n' ∉ w.word.data) :
    splitLines (create_ass segs title kar style color).data =
      (ass_header_lines title (ass_color_of color)).map String.data ++
        ((segs.map (dialogue_line kar style)).map String.data ++ [[]]) := by
  unfold create_ass
  rw [splitLines_joinLinesNL, List.map_append, List.append_assoc]
  intro l hl
  rcases List.mem_append.mp hl with hl' | hl'
  · exact noNL_header_lines title _ htitle (noNL_ass_color_of color) l hl'
  · rcases List.mem_map.mp hl' with ⟨seg, hseg, rfl⟩
    exact noNL_dialogue_line kar style seg hstyle (hsegs seg hseg).1 (hsegs seg hseg).2

/-- C7 counterexample: a segment whose text embeds `"\nDialogue: bad"` makes the
generated file contain two `Dialogue:` lines for a single segment. -/
theorem C7_counterexample :
    countLinesWith "Dialogue:"
        (create_ass [⟨0, 1, "a\nDialogue: bad", []⟩] "" true "Default" "white") = 2 ∧
      ([(⟨0, 1, "a\nDialogue: bad", []⟩ : Segment)]).length = 1 := by decide

/-- C7 amended: provided the title, the style name, every segment text and every
word text contain no newline character, the ASS file contains exactly two
`Style:` lines and exactly one `Dialogue:` line per segment, and an unrecognized
color name produces the same file as `"white"`. -/
theorem C7_ass_line_counts (segs : List Segment) (title style color : String) (kar : Bool)
    (htitle : '\n' ∉ title.data) (hstyle : '\n' ∉ style.data)
    (hsegs : ∀ seg ∈ segs, '\n' ∉ seg.text.data ∧ ∀ w ∈ seg.words, '\n' ∉ w.word.data) :
    countLinesWith "Style:" (create_ass segs title kar style color) = 2 ∧
    countLinesWith "Dialogue:" (create_ass segs title kar style color) = segs.length ∧
    (ASS_COLORS.lookup (pyLower color) = none →
      create_ass segs title kar style color = create_ass segs title kar style "white") := by
  have hnilS : List.countP (fun l => startsWithCh "Style:".data l) [([] : List Char)] = 0 := rfl
  have hnilD : List.countP (fun l => startsWithCh "Dialogue:".data l)
      [([] : List Char)] = 0 := rfl
  refine ⟨?_, ?_, ?_⟩
  · unfold countLinesWith
    rw [create_ass_lines segs title style color kar htitle hstyle hsegs, List.countP_append,
      List.countP_append, header_countS, hnilS]
    have hdlg : (List.countP (fun l => startsWithCh "Style:".data l)
        ((segs.map (dialogue_line kar style)).map String.data)) = 0 := by
      rw [List.countP_eq_zero]
      intro l hl
      rcases List.mem_map.mp hl with ⟨d, hd, rfl⟩
      rcases List.mem_map.mp hd with ⟨seg, _, rfl⟩
      exact fun htrue =>
        Bool.false_ne_true ((dialogue_line_not_startsS kar style seg).symm.trans htrue)
    rw [hdlg]
  · unfold countLinesWith
    rw [create_ass_lines segs title style color kar htitle hstyle hsegs, List.countP_append,
      List.countP_append, header_countD, hnilD]
    have hdlg : (List.countP (fun l => startsWithCh "Dialogue:".data l)
        ((segs.map (dialogue_line kar style)).map String.data)) =
        ((segs.map (dialogue_line kar style)).map String.data).length := by
      rw [List.countP_eq_length]
      intro l hl
      rcases List.mem_map.mp hl with ⟨d, hd, rfl⟩
      rcases List.mem_map.mp hd with ⟨seg, _, rfl⟩
      exact dialogue_line_startsD kar style seg
    rw [hdlg]
    simp
  · intro hnone
    have hcol : ass_color_of color = ass_color_of "white" := by
      unfold ass_color_of
      rw [hnone]
      rfl
    unfold create_ass
    rw [hcol]

/-- C7 witness: the amended statement applied to one karaoke segment, an
unknown color name `"gold"`, title `"My Video"` and style `"Default"`. -/
theorem C7_ass_line_counts_witness :
    ('\n' ∉ "My Video".data) ∧ ('\n' ∉ "Default".data) ∧
    (∀ seg ∈ [(⟨0, 1, "hi", [⟨0, 1 / 2, "hi"⟩]⟩ : Segment)],
      '\n' ∉ seg.text.data ∧ ∀ w ∈ seg.words, '\n' ∉ w.word.data) ∧
    (countLinesWith "Style:"
        (create_ass [⟨0, 1, "hi", [⟨0, 1 / 2, "hi"⟩]⟩] "My Video" true "Default" "gold") = 2 ∧
      countLinesWith "Dialogue:"
        (create_ass [⟨0, 1, "hi", [⟨0, 1 / 2, "hi"⟩]⟩] "My Video" true "Default" "gold") =
        ([(⟨0, 1, "hi", [⟨0, 1 / 2, "hi"⟩]⟩ : Segment)]).length ∧
      (ASS_COLORS.lookup (pyLower "gold") = none →
        create_ass [⟨0, 1, "hi", [⟨0, 1 / 2, "hi"⟩]⟩] "My Video" true "Default" "gold" =
          create_ass [⟨0, 1, "hi", [⟨0, 1 / 2, "hi"⟩]⟩] "My Video" true "Default" "white")) :=
  ⟨by decide, by decide, by decide,
    C7_ass_line_counts [⟨0, 1, "hi", [⟨0, 1 / 2, "hi"⟩]⟩] "My Video" "Default" "gold" true
      (by decide) (by decide) (by decide)⟩

/-! ## C9: cleanup guarantees of `process_media` -/

theorem removeFile_self (p : String) (fs : String → Bool) : removeFile p fs p = false := by
  simp [removeFile]

theorem removeFile_false {fs : String → Bool} {x : String} (p : String) (h : fs x = false) :
    removeFile p fs x = false := by
  unfold removeFile
  split
  · rfl
  · exact h

theorem removeIfExists_self (p : String) (fs : String → Bool) :
    removeIfExists p fs p = false := by
  unfold removeIfExists
  split
  · exact removeFile_self p fs
  · next hc => simpa using hc

theorem removeIfExists_false {fs : String → Bool} {x : String} (p : String)
    (h : fs x = false) : removeIfExists p fs x = false := by
  unfold removeIfExists
  split
  · exact removeFile_false _ h
  · exact h

theorem cleanup_fs_temp (t : String) (d : Option String) (ip : String) (k : Bool)
    (fs : String → Bool) : cleanup_fs t d ip k fs t = false := by
  simp only [cleanup_fs]
  rcases d with _ | dl
  · exact removeIfExists_self t fs
  · show (if k then removeIfExists t fs
        else if dl ≠ ip ∧ removeIfExists dl (removeIfExists t fs) ip then
          removeFile ip (removeIfExists dl (removeIfExists t fs))
        else removeIfExists dl (removeIfExists t fs)) t = false
    split
    · exact removeIfExists_self t fs
    · split
      · exact removeFile_false _ (removeIfExists_false _ (removeIfExists_self t fs))
      · exact removeIfExists_false _ (removeIfExists_self t fs)

theorem cleanup_fs_downloaded (t dl ip : String) (fs : String → Bool) :
    cleanup_fs t (some dl) ip false fs dl = false := by
  simp only [cleanup_fs]
  rw [if_neg (by simp : ¬ (false = true))]
  split
  · exact removeFile_false _ (removeIfExists_self dl _)
  · exact removeIfExists_self dl _

theorem cleanup_fs_input (t dl ip : String) (fs : String → Bool) :
    cleanup_fs t (some dl) ip false fs ip = false := by
  simp only [cleanup_fs]
  rw [if_neg (by simp : ¬ (false = true))]
  by_cases hdi : dl = ip
  · subst hdi
    rw [if_neg (by simp)]
    exact removeIfExists_self dl _
  · split
    · exact removeFile_self _ _
    · next hcond =>
      exact Bool.eq_false_iff.mpr (fun hmem => hcond ⟨hdi, hmem⟩)

theorem process_media_rest_success {fs : String → Bool} {input_path output_dir : String}
    {downloaded : Option String} {keep_video : Bool} {subtitle_formats : List String}
    {extract_ok transcribe_ok : Bool} {model_effect : (String → Bool) → String → Bool}
    (h : (process_media_rest fs input_path output_dir downloaded keep_video subtitle_formats
        extract_ok transcribe_ok model_effect).1 = true) :
    ∃ fs' : String → Bool,
      (process_media_rest fs input_path output_dir downloaded keep_video subtitle_formats
          extract_ok transcribe_ok model_effect).2 =
        cleanup_fs (output_dir ++ "/" ++ sanitize_filename (pathStem input_path) ++ "_temp.wav")
          downloaded input_path keep_video fs' := by
  simp only [process_media_rest] at h ⊢
  by_cases h1 : isVideoFile input_path ∧ extract_ok = false
  · rw [if_pos h1] at h
    simp at h
  · rw [if_neg h1] at h ⊢
    by_cases h2 : transcribe_ok = false
    · rw [if_pos h2] at h
      simp at h
    · rw [if_neg h2] at h ⊢
      exact ⟨_, rfl⟩

theorem process_media_fs_success {fs0 : String → Bool} {input_path output_dir : String}
    {keep_video : Bool} {subtitle_formats : List String} {is_yt dl_ok : Bool}
    {dl_result : String} {extract_ok transcribe_ok : Bool}
    {cache_effect model_effect : (String → Bool) → String → Bool}
    (h : (process_media_fs fs0 input_path output_dir keep_video subtitle_formats is_yt dl_ok
        dl_result extract_ok transcribe_ok cache_effect model_effect).1 = true) :
    ∃ fs' : String → Bool,
      (process_media_fs fs0 input_path output_dir keep_video subtitle_formats is_yt dl_ok
          dl_result extract_ok transcribe_ok cache_effect model_effect).2 =
        cleanup_fs (temp_audio_path input_path output_dir is_yt dl_result)
          (if is_yt then some dl_result else none)
          (resolved_input_path input_path output_dir is_yt dl_result) keep_video fs' := by
  simp only [process_media_fs] at h ⊢
  cases is_yt with
  | false =>
    simp only [Bool.false_eq_true, if_false] at h ⊢
    simp only [temp_audio_path, resolved_input_path, Bool.false_eq_true, if_false]
    exact process_media_rest_success h
  | true =>
    simp only [if_true] at h ⊢
    cases dl_ok with
    | false => simp at h
    | true =>
      rw [if_neg (by simp : ¬ (true = false))] at h ⊢
      simp only [temp_audio_path, resolved_input_path, if_true]
      by_cases hne : dl_result ≠ sanitized_copy_path output_dir dl_result
      · rw [if_pos hne] at h ⊢
        rw [if_pos hne]
        exact process_media_rest_success h
      · rw [if_neg hne] at h ⊢
        rw [if_neg hne]
        exact process_media_rest_success h

/-- C9: after a successful `process_media` run the temporary extracted-audio
file is absent regardless of `keep_video`, and when the input was downloaded
(YouTube branch) with `keep_video = false`, both the downloaded file and the
resolved (sanitized-copy) input path are absent. -/
theorem C9_process_media_cleanup (fs0 : String → Bool) (input_path output_dir : String)
    (keep_video : Bool) (subtitle_formats : List String) (is_yt dl_ok : Bool)
    (dl_result : String) (extract_ok transcribe_ok : Bool)
    (cache_effect model_effect : (String → Bool) → String → Bool)
    (h : (process_media_fs fs0 input_path output_dir keep_video subtitle_formats is_yt dl_ok
        dl_result extract_ok transcribe_ok cache_effect model_effect).1 = true) :
    (process_media_fs fs0 input_path output_dir keep_video subtitle_formats is_yt dl_ok
        dl_result extract_ok transcribe_ok cache_effect model_effect).2
      (temp_audio_path input_path output_dir is_yt dl_result) = false ∧
    (is_yt = true → keep_video = false →
      (process_media_fs fs0 input_path output_dir keep_video subtitle_formats is_yt dl_ok
          dl_result extract_ok transcribe_ok cache_effect model_effect).2 dl_result = false ∧
      (process_media_fs fs0 input_path output_dir keep_video subtitle_formats is_yt dl_ok
          dl_result extract_ok transcribe_ok cache_effect model_effect).2
        (resolved_input_path input_path output_dir is_yt dl_result) = false) := by
  obtain ⟨fs', heq⟩ := process_media_fs_success h
  rw [heq]
  refine ⟨cleanup_fs_temp _ _ _ _ _, fun hyt hk => ?_⟩
  subst hyt
  subst hk
  rw [if_pos rfl]
  exact ⟨cleanup_fs_downloaded _ _ _ _, cleanup_fs_input _ _ _ _⟩

/-- C9 witness: a successful YouTube run with `keep_video = false` — the
downloaded file `"out/vid 1.mp4"`, its sanitized copy `"out/vid_1.mp4"` and the
temporary audio file are all absent afterwards. -/
theorem C9_process_media_cleanup_witness :
    ((process_media_fs (fun _ => false) "https://youtu.be/x" "out" false ["srt"] true true
        "out/vid 1.mp4" true true id id).1 = true) ∧
    ((process_media_fs (fun _ => false) "https://youtu.be/x" "out" false ["srt"] true true
          "out/vid 1.mp4" true true id id).2
        (temp_audio_path "https://youtu.be/x" "out" true "out/vid 1.mp4") = false ∧
      (true = true → false = false →
        (process_media_fs (fun _ => false) "https://youtu.be/x" "out" false ["srt"] true true
            "out/vid 1.mp4" true true id id).2 "out/vid 1.mp4" = false ∧
        (process_media_fs (fun _ => false) "https://youtu.be/x" "out" false ["srt"] true true
            "out/vid 1.mp4" true true id id).2
          (resolved_input_path "https://youtu.be/x" "out" true "out/vid 1.mp4") = false)) :=
  ⟨by decide,
    C9_process_media_cleanup (fun _ => false) "https://youtu.be/x" "out" false ["srt"] true true
      "out/vid 1.mp4" true true id id (by decide)⟩
